import Mathlib

/-!
Verification development for the File-cleanser repository.

The repository is a Streamlit document-cleansing pipeline
(src/file_cleanser.py, with src/File_analyser.py and src/app.py as
near-duplicate variants).  The definitions below are a shallow embedding
of its per-file processing: format dispatch keyed on MIME type and
filename suffix, per-format text extraction, PII redaction (the external
Presidio analyze/anonymize pair is abstracted as a function
redact : String -> String), AI summarization with a failure fallback,
per-format reconstruction of a cleaned artifact, and the session upload
history.

Python string primitives used by the source (str.split with no
separator, str.split with a separator, str.strip, slicing, str.join,
str.endswith, str.startswith) are re-implemented over List Char so that
all definitions evaluate inside the kernel.
-/

namespace FileCleanser

/-! ## Python string primitives -/

/-- ASCII whitespace as recognized by Python str.split and str.strip
(space, tab, newline, carriage return, vertical tab, form feed). -/
def pyIsSpace (c : Char) : Bool :=
  c = ' ' || c = '\t' || c = '\n' || c = '\r' || c = Char.ofNat 11 || c = Char.ofNat 12

/-- Worker for pySplit: accumulates the current (reversed) token while
scanning the character list. -/
def splitWsGo (cur : List Char) : List Char → List String
  | [] => if cur.isEmpty then [] else [String.mk cur.reverse]
  | c :: cs =>
    if pyIsSpace c then
      if cur.isEmpty then splitWsGo [] cs
      else String.mk cur.reverse :: splitWsGo [] cs
    else splitWsGo (c :: cur) cs

/-- Python str.split() with no separator: split on runs of whitespace,
discarding empty tokens. -/
def pySplit (s : String) : List String := splitWsGo [] s.data

/-- Worker for pyLines. -/
def splitNlGo (cur : List Char) : List Char → List String
  | [] => [String.mk cur.reverse]
  | c :: cs =>
    if c = '\n' then String.mk cur.reverse :: splitNlGo [] cs
    else splitNlGo (c :: cur) cs

/-- Python text.split over the newline separator: always yields at least
one piece, keeps empty pieces, and a trailing newline yields a final
empty piece. -/
def pyLines (s : String) : List String := splitNlGo [] s.data

/-- Python str.strip(): drop leading and trailing whitespace. -/
def pyStrip (s : String) : String :=
  String.mk (((s.data.dropWhile pyIsSpace).reverse.dropWhile pyIsSpace).reverse)

/-- Python s[:n]: first n characters. -/
def pyTake (n : Nat) (s : String) : String := String.mk (s.data.take n)

/-- Auxiliary: the first list is an initial segment of the second. -/
def hasPre : List Char → List Char → Bool
  | [], _ => true
  | _ :: _, [] => false
  | p :: ps, c :: cs => p = c && hasPre ps cs

/-- Python s.endswith(suffix). -/
def endsWithPy (s suffix : String) : Bool := hasPre suffix.data.reverse s.data.reverse

/-- Python s.endswith(tuple): any of the suffixes matches. -/
def endsWithAnyPy (s : String) (sufs : List String) : Bool :=
  sufs.any (endsWithPy s)

/-- Python s.startswith(p). -/
def startsWithPy (s p : String) : Bool := hasPre p.data s.data

/-! ## Data model

A spreadsheet cell as yielded by openpyxl iter_rows(values_only=True):
Python None, a string, or a number.  The source only ever asks a cell
for its truthiness and its str() rendering. -/

inductive Cell where
  | null : Cell
  | str (s : String) : Cell
  | num (n : Int) : Cell
deriving DecidableEq, Repr

/-- Python truthiness of a cell value: None, the empty string and zero
are falsy. -/
def Cell.truthy : Cell → Bool
  | .null => false
  | .str s => s ≠ ""
  | .num n => n ≠ 0

/-- Python str() of a cell value. -/
def Cell.toStr : Cell → String
  | .null => "None"
  | .str s => s
  | .num n => toString n

/-- One worksheet: a title and its rows of cells. -/
structure Sheet where
  title : String
  rows : List (List Cell)
deriving DecidableEq, Repr

/-- A workbook as loaded by openpyxl: its worksheets in order. -/
abbrev Workbook := List Sheet

/-- A word-processing document as read by python-docx: paragraphs in
document order, then tables, each a list of rows of cell texts. -/
structure DocxDoc where
  paragraphs : List String
  tables : List (List (List String))
deriving DecidableEq, Repr

/-- The parsed payload of an uploaded file, one constructor per parser
the source dispatches to.  A presentation is its slides, each a list of
shapes where some expose a text attribute; an image is represented by
the text the external OCR engine returns for it. -/
inductive FileContent where
  | txt (s : String) : FileContent
  | pdf (pages : List String) : FileContent
  | docx (d : DocxDoc) : FileContent
  | xlsx (wb : Workbook) : FileContent
  | pptx (slides : List (List (Option String))) : FileContent
  | img (ocrText : String) : FileContent
deriving DecidableEq, Repr

/-- An uploaded file: its name, its declared MIME type, and its parsed
payload. -/
structure UploadedFile where
  name : String
  type : String
  content : FileContent
deriving DecidableEq, Repr

/-! ## Format extraction (extract_text in src/file_cleanser.py) -/

/-- The docx branch of extract_text: paragraph texts each followed by a
newline, then table cell texts, each cell followed by a space and each
row followed by a newline, accumulated into one string. -/
def docxText (d : DocxDoc) : String :=
  let text := d.paragraphs.foldl (fun t para => t ++ para ++ "\n") ""
  d.tables.foldl
    (fun t table =>
      table.foldl
        (fun t row => (row.foldl (fun t cell => t ++ cell ++ " ") t) ++ "\n") t)
    text

/-- The xlsx branch of extract_text: for each sheet and row, each truthy
cell's str() followed by a space, then a newline per row. -/
def xlsxText (wb : Workbook) : String :=
  wb.foldl
    (fun t sheet =>
      sheet.rows.foldl
        (fun t row =>
          (row.foldl (fun t cell => if cell.truthy then t ++ cell.toStr ++ " " else t) t)
            ++ "\n")
        t)
    ""

/-- The pptx branch of extract_text: every shape that has a text
attribute contributes its text followed by a newline. -/
def pptxText (slides : List (List (Option String))) : String :=
  slides.foldl
    (fun t slide =>
      slide.foldl
        (fun t shape => match shape with | some s => t ++ s ++ "\n" | none => t) t)
    ""

/-- extract_text: dispatch on MIME type and filename suffix, in the
order of the if/elif chain of the source.  A branch whose parser payload
does not match its kind models a parser failure on corrupt bytes, which
is outside the embedded fragment, as an empty extraction. -/
def extract_text (f : UploadedFile) : String :=
  if f.type = "text/plain" then
    match f.content with | .txt s => s | _ => ""
  else if f.type = "application/pdf" then
    match f.content with | .pdf pages => pages.foldl (fun t p => t ++ p) "" | _ => ""
  else if endsWithAnyPy f.name [".docx", ".DOCX"] then
    match f.content with | .docx d => docxText d | _ => ""
  else if endsWithAnyPy f.name [".xlsx", ".XLSX"] then
    match f.content with | .xlsx wb => xlsxText wb | _ => ""
  else if endsWithAnyPy f.name [".pptx", ".PPTX"] then
    match f.content with | .pptx slides => pptxText slides | _ => ""
  else if startsWithPy f.type "image" then
    match f.content with | .img s => s | _ => ""
  else ""

/-- True when one of the dispatch conditions of extract_text matches,
i.e. the document kind can be resolved from filename suffix or media
type. -/
def kindResolves (f : UploadedFile) : Bool :=
  f.type = "text/plain" || f.type = "application/pdf"
    || endsWithAnyPy f.name [".docx", ".DOCX"]
    || endsWithAnyPy f.name [".xlsx", ".XLSX"]
    || endsWithAnyPy f.name [".pptx", ".PPTX"]
    || startsWithPy f.type "image"

/-! ## Spreadsheet reconstruction (the xlsx export branch of
src/file_cleanser.py) -/

/-- One cell write new_sheet.cell(row=r, column=c, value=v) performed by
the xlsx export branch. -/
structure CellWrite where
  r : Nat
  c : Nat
  v : String
deriving DecidableEq, Repr

/-- The inner loop of the xlsx export branch: for c, cell_val in
enumerate(tokens, start=c0): new_sheet.cell(row=r, column=c,
value=cell_val). -/
def placeRow (r c0 : Nat) : List String → List CellWrite
  | [] => []
  | tok :: toks => ⟨r, c0, tok⟩ :: placeRow r (c0 + 1) toks

/-- The row line assembled by the xlsx export branch:
" ".join([str(cell) if cell else "" for cell in row]). -/
def rowText (row : List Cell) : String :=
  String.intercalate " " (row.map (fun cell => if cell.truthy then cell.toStr else ""))

/-- The per-sheet loop of the xlsx export branch starting at row number
r0: join each row's cells into a line, redact the line as a unit, split
the result on whitespace and write the tokens from column 1. -/
def buildRows (redact : String → String) (r0 : Nat) : List (List Cell) → List CellWrite
  | [] => []
  | row :: rest =>
    placeRow r0 1 (pySplit (redact (rowText row))) ++ buildRows redact (r0 + 1) rest

/-- The xlsx export branch: a fresh workbook whose default sheet is
removed, then one created sheet per original sheet with the same title,
filled by buildRows with row numbers starting at 1. -/
def xlsx_export (redact : String → String) (wb : Workbook) :
    List (String × List CellWrite) :=
  wb.map (fun sheet => (sheet.title, buildRows redact 1 sheet.rows))

/-- The values written into row number r of a built sheet, in write
order. -/
def rowValues (writes : List CellWrite) (r : Nat) : List String :=
  (writes.filter (fun w => w.r = r)).map (fun w => w.v)

/-- The column numbers written in row number r of a built sheet, in
write order. -/
def rowCols (writes : List CellWrite) (r : Nat) : List Nat :=
  (writes.filter (fun w => w.r = r)).map (fun w => w.c)

/-! ## Presentation reconstruction (the pptx export branch) -/

/-- One slide of the rebuilt presentation: the index of the layout it
was created with and its title text. -/
structure PSlide where
  layout : Nat
  title : String
deriving DecidableEq, Repr

/-- The pptx export branch: for each newline-delimited line of the
redacted text, add a slide using slide_layouts[5] and set its title to
line[:100]. -/
def pptx_export (t : String) : List PSlide :=
  (pyLines t).foldl (fun slides line => slides ++ [⟨5, pyTake 100 line⟩]) []

/-! ## Per-file pipeline (the upload loop of src/file_cleanser.py) -/

/-- One entry of st.session_state.upload_history. -/
structure UploadRecord where
  filename : String
  timestamp : String
deriving DecidableEq, Repr

/-- The downloadable artifact the export dispatch offers, one
constructor per export branch: a cleaned txt payload, a rebuilt docx as
its paragraph lines, a rebuilt workbook, a rebuilt presentation, or the
redacted text offered as cleaned_<name>.txt for images and PDFs. -/
inductive Artifact where
  | txtA (data : String) : Artifact
  | docxA (paras : List String) : Artifact
  | xlsxA (sheets : List (String × List CellWrite)) : Artifact
  | pptxA (slides : List PSlide) : Artifact
  | txtBinA (data : String) : Artifact
deriving DecidableEq, Repr

/-- The export dispatch of the upload loop, in source order: .txt
(lower case only), then .docx/.DOCX, .xlsx/.XLSX (re-reading the
original workbook and running the per-row redaction pass), .pptx/.PPTX,
then image MIME types or .pdf names; any other file gets no download
button. -/
def exportArtifact (redact : String → String) (f : UploadedFile)
    (anonymized_text : String) : Option Artifact :=
  if endsWithPy f.name ".txt" then some (.txtA anonymized_text)
  else if endsWithAnyPy f.name [".docx", ".DOCX"] then
    some (.docxA (pyLines anonymized_text))
  else if endsWithAnyPy f.name [".xlsx", ".XLSX"] then
    match f.content with
    | .xlsx wb => some (.xlsxA (xlsx_export redact wb))
    | _ => none
  else if endsWithAnyPy f.name [".pptx", ".PPTX"] then
    some (.pptxA (pptx_export anonymized_text))
  else if startsWithPy f.type "image" || endsWithPy f.name ".pdf" then
    some (.txtBinA anonymized_text)
  else none

/-- What the upload loop produces for one file. -/
structure FileOutput where
  record : UploadRecord
  anonymized : String
  summary : String
  artifact : Option Artifact
deriving Repr

/-- The body of the upload loop for one file: extract, append the
history record, redact the whole extracted text, summarize inside
try/except with the placeholder fallback, then run the export dispatch.
The external Presidio pair is the redact parameter; the external LLM
call is the summarize parameter, with .error standing for a raised
exception. -/
def processFile (redact : String → String) (summarize : String → Except Unit String)
    (now : String) (f : UploadedFile) : FileOutput :=
  let original_text := extract_text f
  let anonymized_text := redact original_text
  let ai_summary :=
    match summarize anonymized_text with
    | .ok s => s
    | .error _ => "AI summary unavailable."
  { record := ⟨f.name, now⟩
    anonymized := anonymized_text
    summary := ai_summary
    artifact := exportArtifact redact f anonymized_text }

/-- Worker for processBatch: i numbers the datetime.now() calls, hist is
the history list accumulated so far. -/
def processBatchGo (redact : String → String) (summarize : String → Except Unit String)
    (clock : Nat → String) (i : Nat) (hist : List UploadRecord) :
    List UploadedFile → List FileOutput × List UploadRecord
  | [] => ([], hist)
  | f :: fs =>
    let out := processFile redact summarize (clock i) f
    let rest := processBatchGo redact summarize clock (i + 1) (hist ++ [out.record]) fs
    (out :: rest.1, rest.2)

/-- The whole upload loop: process the files in order, threading the
session upload history, with clock i the timestamp taken for the i-th
file. -/
def processBatch (redact : String → String) (summarize : String → Except Unit String)
    (clock : Nat → String) (files : List UploadedFile) (h0 : List UploadRecord) :
    List FileOutput × List UploadRecord :=
  processBatchGo redact summarize clock 0 h0 files

/-- The history display: upload_history[::-1], most recent first. -/
def displayHistory (h : List UploadRecord) : List UploadRecord := h.reverse

/-- The records the upload loop appends for a list of files when the
first timestamp index is i. -/
def recordsOf (clock : Nat → String) (i : Nat) : List UploadedFile → List UploadRecord
  | [] => []
  | f :: fs => ⟨f.name, clock i⟩ :: recordsOf clock (i + 1) fs

/-! ## The single-file pipeline of src/File_analyser.py -/

/-- What the File_analyser page shows for one uploaded file. -/
inductive FAResult where
  | emptyWarning : FAResult
  | processed (raw : String) (anonymized_text : String) : FAResult
deriving DecidableEq, Repr

/-- The post-extraction guard of src/File_analyser.py: if text.strip()
is truthy, show the raw text, redact and offer the download; otherwise
only warn that no text could be extracted. -/
def fa_process (redact : String → String) (f : UploadedFile) : FAResult :=
  let text := extract_text f
  if pyStrip text ≠ "" then .processed text (redact text)
  else .emptyWarning

/-! ## Definitions written from the spec's words, for comparison -/

/-- Follows the spec's words for the flattened spreadsheet text view:
row cells space-joined, rows newline-joined, sheets concatenated, every
cell rendered by str() with null rendered as the empty string. -/
def xlsxFlattenSpec (wb : Workbook) : String :=
  String.join (wb.map (fun sheet =>
    String.intercalate "\n" (sheet.rows.map (fun row =>
      String.intercalate " " (row.map (fun cell =>
        match cell with | .null => "" | c => c.toStr))))))

/-! ## Helper lemmas -/

lemma join_nil : String.join [] = "" := rfl

lemma strfoldl_shift (l : List String) :
    ∀ a : String, l.foldl (fun r s => r ++ s) a = a ++ l.foldl (fun r s => r ++ s) "" := by
  induction l with
  | nil => intro a; exact (String.append_empty a).symm
  | cons x xs ih =>
    intro a
    rw [List.foldl_cons, List.foldl_cons, ih (a ++ x), ih ("" ++ x),
      String.empty_append, String.append_assoc]

lemma join_cons (s : String) (l : List String) :
    String.join (s :: l) = s ++ String.join l := by
  show (s :: l).foldl (fun r t => r ++ t) "" = s ++ l.foldl (fun r t => r ++ t) ""
  rw [List.foldl_cons, String.empty_append, strfoldl_shift]

lemma foldl_glue {α : Type} (g : α → String) (l : List α) :
    ∀ a : String, List.foldl (fun t x => t ++ g x) a l = a ++ String.join (l.map g) := by
  induction l with
  | nil => intro a; simp only [List.foldl_nil, List.map_nil, join_nil]
           exact (String.append_empty a).symm
  | cons x xs ih =>
    intro a
    rw [List.foldl_cons, List.map_cons, ih (a ++ g x), join_cons, String.append_assoc]

lemma foldl_snoc {α β : Type} (g : α → β) (l : List α) :
    ∀ init : List β, l.foldl (fun acc x => acc ++ [g x]) init = init ++ l.map g := by
  induction l with
  | nil => intro init; simp
  | cons x xs ih => intro init; rw [List.foldl_cons, List.map_cons, ih]; simp

lemma docxText_eq (d : DocxDoc) :
    docxText d
      = String.join (d.paragraphs.map (fun p => p ++ "\n"))
        ++ String.join (d.tables.map (fun table =>
             String.join (table.map (fun row =>
               String.join (row.map (fun cell => cell ++ " ")) ++ "\n")))) := by
  have hp : (fun (t para : String) => t ++ para ++ "\n")
      = fun t para => t ++ (para ++ "\n") := by
    funext t para; rw [String.append_assoc]
  have hcell : (fun (t cell : String) => t ++ cell ++ " ")
      = fun t cell => t ++ (cell ++ " ") := by
    funext t cell; rw [String.append_assoc]
  have hrow : (fun (t : String) (row : List String) =>
        (row.foldl (fun t cell => t ++ cell ++ " ") t) ++ "\n")
      = fun t row => t ++ (String.join (row.map (fun cell => cell ++ " ")) ++ "\n") := by
    funext t row
    rw [hcell, foldl_glue (fun cell => cell ++ " ") row t, String.append_assoc]
  have htab : (fun (t : String) (table : List (List String)) =>
        table.foldl (fun t row =>
          (row.foldl (fun t cell => t ++ cell ++ " ") t) ++ "\n") t)
      = fun t table => t ++ String.join (table.map (fun row =>
          String.join (row.map (fun cell => cell ++ " ")) ++ "\n")) := by
    funext t table
    rw [hrow, foldl_glue (fun row =>
      String.join (row.map (fun cell => cell ++ " ")) ++ "\n") table t]
  rw [docxText, hp, htab,
    foldl_glue (fun para => para ++ "\n") d.paragraphs "",
    foldl_glue (fun table => String.join (table.map (fun row =>
      String.join (row.map (fun cell => cell ++ " ")) ++ "\n"))) d.tables,
    String.empty_append]

lemma foldl_cells (row : List Cell) :
    ∀ a : String,
      row.foldl (fun t cell => if cell.truthy then t ++ cell.toStr ++ " " else t) a
        = a ++ String.join ((row.filter Cell.truthy).map (fun c => c.toStr ++ " ")) := by
  induction row with
  | nil => intro a; simp only [List.foldl_nil, List.filter_nil, List.map_nil, join_nil]
           exact (String.append_empty a).symm
  | cons c cs ih =>
    intro a
    rw [List.foldl_cons, List.filter_cons]
    cases hc : c.truthy with
    | true =>
      simp only [hc, if_true]
      rw [ih (a ++ c.toStr ++ " "), List.map_cons, join_cons]
      simp [String.append_assoc]
    | false =>
      simp only [hc, Bool.false_eq_true, if_false]
      exact ih a

lemma xlsxText_eq (wb : Workbook) :
    xlsxText wb
      = String.join (wb.map (fun sheet =>
          String.join (sheet.rows.map (fun row =>
            String.join ((row.filter Cell.truthy).map (fun c => c.toStr ++ " "))
              ++ "\n")))) := by
  have hrow : (fun (t : String) (row : List Cell) =>
        (row.foldl (fun t cell => if cell.truthy then t ++ cell.toStr ++ " " else t) t)
          ++ "\n")
      = fun t row =>
          t ++ (String.join ((row.filter Cell.truthy).map (fun c => c.toStr ++ " "))
            ++ "\n") := by
    funext t row
    rw [foldl_cells row t, String.append_assoc]
  have hsheet : (fun (t : String) (sheet : Sheet) =>
        sheet.rows.foldl (fun t row =>
          (row.foldl (fun t cell => if cell.truthy then t ++ cell.toStr ++ " " else t) t)
            ++ "\n") t)
      = fun t sheet =>
          t ++ String.join (sheet.rows.map (fun row =>
            String.join ((row.filter Cell.truthy).map (fun c => c.toStr ++ " "))
              ++ "\n")) := by
    funext t sheet
    rw [hrow, foldl_glue (fun row =>
      String.join ((row.filter Cell.truthy).map (fun c => c.toStr ++ " ")) ++ "\n")
      sheet.rows t]
  rw [xlsxText, hsheet,
    foldl_glue (fun sheet =>
      String.join (sheet.rows.map (fun row =>
        String.join ((row.filter Cell.truthy).map (fun c => c.toStr ++ " ")) ++ "\n")))
      wb "",
    String.empty_append]

lemma placeRow_mem_r {w : CellWrite} :
    ∀ {toks : List String} {r c : Nat}, w ∈ placeRow r c toks → w.r = r := by
  intro toks
  induction toks with
  | nil => intro r c h; simp [placeRow] at h
  | cons t ts ih =>
    intro r c h
    rw [placeRow] at h
    rcases List.mem_cons.mp h with h0 | h1
    · rw [h0]
    · exact ih h1

lemma placeRow_filter_self (r : Nat) :
    ∀ (toks : List String) (c : Nat),
      (placeRow r c toks).filter (fun w => w.r = r) = placeRow r c toks := by
  intro toks
  induction toks with
  | nil => intro c; rfl
  | cons t ts ih =>
    intro c
    rw [placeRow, List.filter_cons]
    simp only [decide_eq_true_eq, if_true]
    rw [ih (c + 1)]

lemma placeRow_filter_ne {r rr : Nat} (hne : rr ≠ r) :
    ∀ (toks : List String) (c : Nat),
      (placeRow r c toks).filter (fun w => w.r = rr) = [] := by
  intro toks
  induction toks with
  | nil => intro c; rfl
  | cons t ts ih =>
    intro c
    rw [placeRow, List.filter_cons]
    simp only [decide_eq_true_eq]
    rw [if_neg (fun h => hne h.symm), ih (c + 1)]

lemma placeRow_map_v (r : Nat) :
    ∀ (toks : List String) (c : Nat), (placeRow r c toks).map CellWrite.v = toks := by
  intro toks
  induction toks with
  | nil => intro c; rfl
  | cons t ts ih => intro c; rw [placeRow, List.map_cons, ih (c + 1)]

lemma placeRow_map_c (r : Nat) :
    ∀ (toks : List String) (c : Nat),
      (placeRow r c toks).map CellWrite.c = List.range' c toks.length := by
  intro toks
  induction toks with
  | nil => intro c; rfl
  | cons t ts ih =>
    intro c
    rw [placeRow, List.map_cons, ih (c + 1), List.length_cons, List.range'_succ]

lemma buildRows_mem_ge (redact : String → String) {w : CellWrite} :
    ∀ (rows : List (List Cell)) (r0 : Nat), w ∈ buildRows redact r0 rows → r0 ≤ w.r := by
  intro rows
  induction rows with
  | nil => intro r0 h; simp [buildRows] at h
  | cons row rest ih =>
    intro r0 h
    rw [buildRows] at h
    rcases List.mem_append.mp h with h0 | h1
    · exact le_of_eq (placeRow_mem_r h0).symm
    · exact le_trans (Nat.le_succ r0) (ih (r0 + 1) h1)

lemma buildRows_filter (redact : String → String) :
    ∀ (rows : List (List Cell)) (r0 k : Nat) (hk : k < rows.length),
      (buildRows redact r0 rows).filter (fun w => w.r = r0 + k)
        = placeRow (r0 + k) 1 (pySplit (redact (rowText rows[k]))) := by
  intro rows
  induction rows with
  | nil => intro r0 k hk; exact absurd hk (Nat.not_lt_zero k)
  | cons row rest ih =>
    intro r0 k hk
    rw [buildRows, List.filter_append]
    cases k with
    | zero =>
      rw [Nat.add_zero, placeRow_filter_self r0]
      have hrest : (buildRows redact (r0 + 1) rest).filter (fun w => w.r = r0) = [] := by
        rw [List.filter_eq_nil_iff]
        intro w hw
        simp only [decide_eq_true_eq]
        intro hwr
        have := buildRows_mem_ge redact rest (r0 + 1) hw
        omega
      rw [hrest, List.append_nil]
      rfl
    | succ kk =>
      have hne : r0 + (kk + 1) ≠ r0 := by omega
      rw [placeRow_filter_ne hne, List.nil_append]
      have hk2 : kk < rest.length := Nat.lt_of_succ_lt_succ hk
      have := ih (r0 + 1) kk hk2
      have harith : r0 + 1 + kk = r0 + (kk + 1) := by omega
      rw [harith] at this
      rw [this]
      rfl

lemma processBatchGo_fst_length (redact : String → String)
    (summarize : String → Except Unit String) (clock : Nat → String) :
    ∀ (files : List UploadedFile) (i : Nat) (hist : List UploadRecord),
      (processBatchGo redact summarize clock i hist files).1.length = files.length := by
  intro files
  induction files with
  | nil => intro i hist; rfl
  | cons f fs ih =>
    intro i hist
    simp [processBatchGo, ih]

lemma processBatchGo_snd (redact : String → String)
    (summarize : String → Except Unit String) (clock : Nat → String) :
    ∀ (files : List UploadedFile) (i : Nat) (hist : List UploadRecord),
      (processBatchGo redact summarize clock i hist files).2
        = hist ++ recordsOf clock i files := by
  intro files
  induction files with
  | nil => intro i hist; exact (List.append_nil hist).symm
  | cons f fs ih =>
    intro i hist
    rw [processBatchGo, recordsOf]
    show (processBatchGo redact summarize clock (i + 1)
        (hist ++ [(processFile redact summarize (clock i) f).record]) fs).2 = _
    rw [ih (i + 1)]
    simp [processFile]

lemma recordsOf_length (clock : Nat → String) :
    ∀ (files : List UploadedFile) (i : Nat), (recordsOf clock i files).length = files.length := by
  intro files
  induction files with
  | nil => intro i; rfl
  | cons f fs ih => intro i; simp [recordsOf, ih]

lemma xlsx_export_titles (redact : String → String) :
    ∀ wb : Workbook, (xlsx_export redact wb).map Prod.fst = wb.map Sheet.title := by
  intro wb
  induction wb with
  | nil => rfl
  | cons s ss ih => simp only [xlsx_export, List.map_cons] at *; rw [ih]

/-! ## Concrete fixtures used by witnesses and counterexamples -/

/-- The identity redactor: a detector that finds no PII spans. -/
def idRedact (s : String) : String := s

/-- A redactor that visibly brackets its whole input. -/
def tagRedact (s : String) : String := "[" ++ s ++ "]"

/-- A redactor that rewrites exactly the line consisting of the single
token A, as a span-based anonymizer could. -/
def demoRedact (s : String) : String := if s = "A" then "X" else s

/-- A summarizer call that returns normally. -/
def sOk : String → Except Unit String := fun _ => .ok "summary"

/-- A summarizer call that raises. -/
def sFail : String → Except Unit String := fun _ => .error ()

/-- A constant clock. -/
def clock0 : Nat → String := fun _ => "t0"

/-- A one-sheet workbook with one two-cell row. -/
def wbW : Workbook := [⟨"S1", [[Cell.str "A", Cell.str "B"]]⟩]

/-- A one-sheet workbook whose single row holds the single cell A. -/
def demoWb : Workbook := [⟨"S", [[Cell.str "A"]]⟩]

/-- A workbook with a zero-valued cell between two truthy cells. -/
def wbC5 : Workbook := [⟨"Sheet1", [[Cell.str "A", Cell.num 0, Cell.str "B"]]⟩]

/-- An upload whose kind no dispatch condition resolves. -/
def binFile : UploadedFile := ⟨"notes.bin", "application/octet-stream", .txt "hello"⟩

/-- A plain-text upload whose content is a single space. -/
def wsFile : UploadedFile := ⟨"a.txt", "text/plain", .txt " "⟩

/-- A plain-text upload with ordinary content. -/
def txtFile : UploadedFile := ⟨"a.txt", "text/plain", .txt "hello"⟩

/-- A docx upload with one paragraph and one one-row table. -/
def dW : DocxDoc := ⟨["p"], [[["a", "b"]]]⟩

/-- The docx upload carrying dW. -/
def docxFileW : UploadedFile :=
  ⟨"d.docx", "application/vnd.openxmlformats-officedocument.wordprocessingml.document",
    .docx dW⟩

/-- The xlsx upload carrying wbC5. -/
def xlFile5 : UploadedFile :=
  ⟨"t.xlsx", "application/vnd.openxmlformats-officedocument.spreadsheetml.sheet",
    .xlsx wbC5⟩

/-- The xlsx upload carrying demoWb. -/
def demoXl : UploadedFile :=
  ⟨"data.xlsx", "application/vnd.openxmlformats-officedocument.spreadsheetml.sheet",
    .xlsx demoWb⟩

/-! ## Claims -/

/-- C1: for every spreadsheet document, redaction is applied per row:
the row's cells are joined into one line (rowText), that line is
redacted as a single unit by the detector/anonymizer (the redact
parameter), the redacted line is re-split on whitespace (pySplit), and
the resulting tokens repopulate the row's cells of the exported
sheet. -/
theorem xlsx_redaction_per_row (redact : String → String) (wb : Workbook) (si k : Nat)
    (hsi : si < wb.length) (hk : k < wb[si].rows.length) :
    (xlsx_export redact wb)[si]? = some (wb[si].title, buildRows redact 1 wb[si].rows)
    ∧ rowValues (buildRows redact 1 wb[si].rows) (k + 1)
      = pySplit (redact (rowText (wb[si].rows[k]))) := by
  constructor
  · rw [xlsx_export, List.getElem?_map, List.getElem?_eq_getElem hsi, Option.map_some']
  · rw [rowValues]
    have hfil := buildRows_filter redact wb[si].rows 1 k hk
    have harith : 1 + k = k + 1 := Nat.add_comm 1 k
    rw [harith] at hfil
    rw [hfil, placeRow_map_v]

/-- Witness for C1 on a concrete one-sheet workbook with the identity
redactor. -/
theorem xlsx_redaction_per_row_witness :
    rowValues (buildRows idRedact 1 [[Cell.str "A", Cell.str "B"]]) 1 = ["A", "B"] := by
  have h := (xlsx_redaction_per_row idRedact wbW 0 0 (by decide) (by decide)).2
  exact h.trans (by decide)

/-- C2: reconstructing a spreadsheet yields one sheet per original
sheet, with the same titles in the same order, and each row's tokens
are written into consecutive columns starting at column 1. -/
theorem xlsx_reconstruction_structure (redact : String → String) (wb : Workbook)
    (si k : Nat) (hsi : si < wb.length) (hk : k < wb[si].rows.length) :
    (xlsx_export redact wb).length = wb.length
    ∧ (xlsx_export redact wb).map Prod.fst = wb.map Sheet.title
    ∧ rowCols (buildRows redact 1 wb[si].rows) (k + 1)
      = List.range' 1 (pySplit (redact (rowText (wb[si].rows[k])))).length := by
  refine ⟨?_, xlsx_export_titles redact wb, ?_⟩
  · rw [xlsx_export, List.length_map]
  · rw [rowCols]
    have hfil := buildRows_filter redact wb[si].rows 1 k hk
    have harith : 1 + k = k + 1 := Nat.add_comm 1 k
    rw [harith] at hfil
    rw [hfil, placeRow_map_c]

/-- Witness for C2 on a concrete one-sheet workbook with the identity
redactor. -/
theorem xlsx_reconstruction_structure_witness :
    rowCols (buildRows idRedact 1 [[Cell.str "A", Cell.str "B"]]) 1 = [1, 2] := by
  have h := (xlsx_reconstruction_structure idRedact wbW 0 0 (by decide) (by decide)).2.2
  exact h.trans (by decide)

/-- C3: the rebuilt presentation has exactly one slide per
newline-delimited line of the redacted text, each created with the
fixed layout index 5 and titled with its line truncated to 100
characters. -/
theorem pptx_reconstruction_slides (t : String) (i : Nat) :
    (pptx_export t).length = (pyLines t).length
    ∧ (pptx_export t)[i]? = ((pyLines t)[i]?).map (fun line => PSlide.mk 5 (pyTake 100 line)) := by
  have h : pptx_export t = (pyLines t).map (fun line => PSlide.mk 5 (pyTake 100 line)) := by
    rw [pptx_export, foldl_snoc, List.nil_append]
  constructor
  · rw [h, List.length_map]
  · rw [h, List.getElem?_map]

/-- C4: for a word-processing document, extraction is the concatenation
of all paragraph texts in order, each followed by a newline, then all
table cell texts in table, row, cell order, each cell followed by a
space and each row followed by a newline; paragraphs and tables are
never interleaved. -/
theorem docx_extraction_order (f : UploadedFile) (d : DocxDoc)
    (h1 : f.type ≠ "text/plain") (h2 : f.type ≠ "application/pdf")
    (h3 : endsWithAnyPy f.name [".docx", ".DOCX"] = true)
    (hc : f.content = .docx d) :
    extract_text f
      = String.join (d.paragraphs.map (fun p => p ++ "\n"))
        ++ String.join (d.tables.map (fun table =>
            String.join (table.map (fun row =>
              String.join (row.map (fun cell => cell ++ " ")) ++ "\n")))) := by
  rw [extract_text, if_neg h1, if_neg h2, if_pos h3, hc]
  exact docxText_eq d

/-- Witness for C4 on a concrete docx upload. -/
theorem docx_extraction_order_witness : extract_text docxFileW = "p\na b \n" := by
  have h := docx_extraction_order docxFileW dW (by decide) (by decide) (by decide) rfl
  exact h.trans (by decide)

/-- C5 counterexample: on a spreadsheet whose single row is the cells
A, 0, B, the flattened text produced by extraction is A B followed by a
trailing space and newline, while space-joining the row's cells and
newline-joining rows as the claim states yields A 0 B: the zero cell is
dropped by extraction and every row gains a trailing space and a
newline. -/
theorem xlsx_flatten_spec_counterexample :
    extract_text xlFile5 ≠ xlsxFlattenSpec wbC5 := by decide

/-- C5 as amended: the flattened text view produced by extraction
renders, for each sheet and each row, every truthy cell's str() followed
by a space, skipping null, zero and empty-string cells entirely, and
terminates every row with a newline, sheets concatenated in order. -/
theorem xlsx_flatten_code_shape (f : UploadedFile) (wb : Workbook)
    (h1 : f.type ≠ "text/plain") (h2 : f.type ≠ "application/pdf")
    (h3 : endsWithAnyPy f.name [".docx", ".DOCX"] = false)
    (h4 : endsWithAnyPy f.name [".xlsx", ".XLSX"] = true)
    (hc : f.content = .xlsx wb) :
    extract_text f
      = String.join (wb.map (fun sheet =>
          String.join (sheet.rows.map (fun row =>
            String.join ((row.filter Cell.truthy).map (fun c => c.toStr ++ " "))
              ++ "\n")))) := by
  have h3' : ¬(endsWithAnyPy f.name [".docx", ".DOCX"] = true) := by simp [h3]
  rw [extract_text, if_neg h1, if_neg h2, if_neg h3', if_pos h4, hc]
  exact xlsxText_eq wb

/-- Witness for the amended C5 on a concrete workbook with a zero
cell. -/
theorem xlsx_flatten_code_shape_witness : extract_text xlFile5 = "A B \n" := by
  have h := xlsx_flatten_code_shape xlFile5 wbC5 (by decide) (by decide)
    (by decide) (by decide) rfl
  exact h.trans (by decide)

/-- C6 counterexample: a file whose kind no dispatch condition resolves
is not failed with an UnsupportedFormat error; extraction completes and
returns the empty string, and the upload loop still processes the file,
redacting the empty text. -/
theorem unresolved_kind_counterexample :
    kindResolves binFile = false
    ∧ extract_text binFile = ""
    ∧ (processFile idRedact sOk "t0" binFile).anonymized = "" := by
  refine ⟨by decide, rfl, rfl⟩

/-- C6 as amended: when the kind cannot be resolved from filename
suffix or media type, no error is raised; extract_text falls through
every branch and returns the empty string, and the per-file pipeline
continues, still appending the upload record. -/
theorem unresolved_kind_no_failure (f : UploadedFile) (redact : String → String)
    (summarize : String → Except Unit String) (now : String)
    (h : kindResolves f = false) :
    extract_text f = ""
    ∧ (processFile redact summarize now f).record = ⟨f.name, now⟩ := by
  simp only [kindResolves, Bool.or_eq_false_iff, decide_eq_false_iff_not] at h
  obtain ⟨⟨⟨⟨⟨h1, h2⟩, h3⟩, h4⟩, h5⟩, h6⟩ := h
  constructor
  · have h3' : ¬(endsWithAnyPy f.name [".docx", ".DOCX"] = true) := by simp [h3]
    have h4' : ¬(endsWithAnyPy f.name [".xlsx", ".XLSX"] = true) := by simp [h4]
    have h5' : ¬(endsWithAnyPy f.name [".pptx", ".PPTX"] = true) := by simp [h5]
    have h6' : ¬(startsWithPy f.type "image" = true) := by simp [h6]
    rw [extract_text, if_neg h1, if_neg h2, if_neg h3', if_neg h4', if_neg h5', if_neg h6']
  · rfl

/-- Witness for the amended C6 on a concrete unresolvable upload. -/
theorem unresolved_kind_no_failure_witness :
    extract_text binFile = ""
    ∧ (processFile idRedact sOk "t0" binFile).record = ⟨"notes.bin", "t0"⟩ := by
  exact unresolved_kind_no_failure binFile idRedact sOk "t0" (by decide)

/-- C7 counterexample: in the upload loop of src/file_cleanser.py a
document whose extraction is whitespace-only is still redacted (its
anonymized output depends on the redactor applied to the whitespace
text) and still gets a reconstruction artifact; no warning state
exists in that loop. -/
theorem empty_text_still_redacted_counterexample :
    pyStrip (extract_text wsFile) = ""
    ∧ (processFile tagRedact sOk "t0" wsFile).anonymized = "[ ]"
    ∧ (processFile tagRedact sOk "t0" wsFile).artifact = some (.txtA "[ ]") := by
  refine ⟨by decide, rfl, rfl⟩

/-- C7 as amended: the empty-extraction guard exists only in the
single-file pipeline of src/File_analyser.py, where whitespace-only
extraction surfaces the warning and no redaction or reconstruction is
performed; the batch loop of src/file_cleanser.py has no such guard and
redacts and reconstructs regardless. -/
theorem empty_text_warning_analyser (redact : String → String) (f : UploadedFile)
    (h : pyStrip (extract_text f) = "") :
    fa_process redact f = FAResult.emptyWarning := by
  simp [fa_process, h]

/-- Witness for the amended C7 on a whitespace-only plain-text
upload. -/
theorem empty_text_warning_analyser_witness :
    fa_process tagRedact wsFile = FAResult.emptyWarning :=
  empty_text_warning_analyser tagRedact wsFile (by decide)

/-- C8: when the summarization call raises, the failure does not
propagate: the summary degrades to the placeholder string and the batch
still yields one output per document. -/
theorem summarizer_failure_degrades (redact : String → String)
    (summarize : String → Except Unit String) (clock : Nat → String)
    (f : UploadedFile) (rest : List UploadedFile) (h0 : List UploadRecord)
    (h : summarize (redact (extract_text f)) = .error ()) :
    (processFile redact summarize (clock 0) f).summary = "AI summary unavailable."
    ∧ (processBatch redact summarize clock (f :: rest) h0).1.length = rest.length + 1 := by
  constructor
  · simp [processFile, h]
  · rw [processBatch,
      processBatchGo_fst_length redact summarize clock (f :: rest) 0 h0,
      List.length_cons]

/-- Witness for C8: a summarizer that always raises yields the
placeholder on a concrete upload, and the one-file batch still produces
one output. -/
theorem summarizer_failure_degrades_witness :
    (processFile idRedact sFail "t0" txtFile).summary = "AI summary unavailable."
    ∧ (processBatch idRedact sFail clock0 [txtFile] []).1.length = 1 := by
  exact summarizer_failure_degrades idRedact sFail clock0 txtFile [] [] rfl

/-- C9: the upload loop appends exactly one record per processed file;
the history is append-only, the starting history surviving as a prefix
with the new records after it in processing order, and the display
shows the reversed list, most recent first. -/
theorem upload_history_append_only (redact : String → String)
    (summarize : String → Except Unit String) (clock : Nat → String)
    (files : List UploadedFile) (h0 : List UploadRecord) :
    (processBatch redact summarize clock files h0).2 = h0 ++ recordsOf clock 0 files
    ∧ displayHistory (processBatch redact summarize clock files h0).2
        = (recordsOf clock 0 files).reverse ++ displayHistory h0
    ∧ (recordsOf clock 0 files).length = files.length := by
  have hh := processBatchGo_snd redact summarize clock files 0 h0
  refine ⟨hh, ?_, recordsOf_length clock files 0⟩
  rw [processBatch, hh, displayHistory, displayHistory, List.reverse_append]

/-- C10: the xlsx artifact is produced by a second, independent per-row
redaction pass over the re-extracted original workbook, not from the
document-level redacted text; and the two passes can disagree, as the
concrete demoRedact does on demoWb, where the per-row pass writes X
while re-splitting the document-level redacted text yields A. -/
theorem xlsx_artifact_second_pass (redact : String → String)
    (summarize : String → Except Unit String) (now : String)
    (f : UploadedFile) (wb : Workbook)
    (h1 : endsWithPy f.name ".txt" = false)
    (h2 : endsWithAnyPy f.name [".docx", ".DOCX"] = false)
    (h3 : endsWithAnyPy f.name [".xlsx", ".XLSX"] = true)
    (hc : f.content = .xlsx wb) :
    (processFile redact summarize now f).artifact
      = some (Artifact.xlsxA (xlsx_export redact wb))
    ∧ rowValues (buildRows demoRedact 1 [[Cell.str "A"]]) 1
      ≠ pySplit (demoRedact (xlsxText demoWb)) := by
  constructor
  · show exportArtifact redact f (redact (extract_text f)) = _
    have h1' : ¬(endsWithPy f.name ".txt" = true) := by simp [h1]
    have h2' : ¬(endsWithAnyPy f.name [".docx", ".DOCX"] = true) := by simp [h2]
    rw [exportArtifact, if_neg h1', if_neg h2', if_pos h3, hc]
  · decide

/-- Witness for C10 on a concrete xlsx upload with the demo
redactor. -/
theorem xlsx_artifact_second_pass_witness :
    (processFile demoRedact sOk "t0" demoXl).artifact
      = some (Artifact.xlsxA (xlsx_export demoRedact demoWb)) :=
  (xlsx_artifact_second_pass demoRedact sOk "t0" demoXl demoWb
    (by decide) (by decide) (by decide) rfl).1

end FileCleanser
